import Mathlib

/-!
Shallow embedding of `src/scripts/train.py` (plr-exercise): an MNIST training
script with an Optuna hyperparameter search.  Scalars (losses, learning
rates) are modelled as rationals; a model is an abstract parameter state
`P` together with a forward function `P → α → List ℚ` producing one score
per class for each input; an optimizer step is an abstract parameter update
`ℚ → P → batch → P` taking the current learning rate.  Batched loaders are
lists of lists of samples.
-/

namespace PlrExercise

/-- The run configuration built by `main`'s argparse block
(`src/scripts/train.py` lines 149-170), one field per flag. -/
structure Args where
  batch_size : Nat
  test_batch_size : Nat
  epochs : Nat
  lr : ℚ
  gamma : ℚ
  no_cuda : Bool
  dry_run : Bool
  seed : Nat
  log_interval : Nat
  save_model : Bool
deriving Repr, DecidableEq

/-- One labelled sample `(data, target)` as yielded by a loader. -/
structure Sample (α : Type) where
  data : α
  target : Nat
deriving Repr, DecidableEq

/-- Per-sample `F.nll_loss(output, target)`: the negated score at
the target index (`output` holds per-class log-probabilities in the real
program; here an arbitrary list of rationals). -/
def nll_loss (output : List ℚ) (target : Nat) : ℚ :=
  -(output.getD target 0)

/-- Helper for `torch.argmax`: scan with the best value/index so far,
keeping the first maximal index. -/
def argmaxGo (l : List ℚ) (bi : Nat) (bv : ℚ) (i : Nat) : Nat :=
  match l with
  | [] => bi
  | x :: xs => if bv < x then argmaxGo xs i x (i + 1) else argmaxGo xs bi bv (i + 1)

/-- Top-1 prediction `output.argmax(dim=1)` for one sample's score list
(index of the first maximal entry; 0 on the empty list). -/
def argmax : List ℚ → Nat
  | [] => 0
  | x :: xs => argmaxGo xs 0 x 1

/-- Summed batch loss `F.nll_loss(output, target, reduction="sum")`
(`train.py` line 82). -/
def batchLoss {α : Type} (model : α → List ℚ) (batch : List (Sample α)) : ℚ :=
  (batch.map (fun s => nll_loss (model s.data) s.target)).sum

/-- Batch correct count `pred.eq(target.view_as(pred)).sum()`: the number of
samples whose top-1 prediction equals the label (`train.py` lines 83-84). -/
def batchCorrect {α : Type} (model : α → List ℚ) (batch : List (Sample α)) : Nat :=
  (batch.filter (fun s => argmax (model s.data) = s.target)).length

/-- State threaded through `test`'s evaluation loop: the model parameters
(untouched by the loop) and the accumulators `test_loss`, `correct`
(`train.py` lines 75-84). -/
structure EvalState (P : Type) where
  params : P
  test_loss : ℚ
  correct : Nat
deriving Repr, DecidableEq

/-- One iteration of `test`'s `for data, target in test_loader` loop:
forward pass, add the batch's summed loss, add the batch's correct count.
Inside `torch.no_grad()` nothing writes the parameters. -/
def evalBatch {P α : Type} (forward : P → α → List ℚ) (st : EvalState P)
    (batch : List (Sample α)) : EvalState P :=
  { st with
    test_loss := st.test_loss + batchLoss (forward st.params) batch
    correct := st.correct + batchCorrect (forward st.params) batch }

/-- The evaluator `test(model, device, test_loader, epoch)` (`train.py` lines 61-95):
runs the no-grad loop over all batches, divides the summed loss by
`len(test_loader.dataset)` (the loader partitions the dataset, so that
length is the total sample count of all batches), and returns the final
state together with the returned average loss and the printed accuracy
`correct / len(test_loader.dataset)`. -/
def test {P α : Type} (forward : P → α → List ℚ) (params : P)
    (loader : List (List (Sample α))) : EvalState P × ℚ × ℚ :=
  let N : ℚ := (loader.flatten.length : ℚ)
  let st := loader.foldl (evalBatch forward) ⟨params, 0, 0⟩
  (st, st.test_loss / N, (st.correct : ℚ) / N)

/-- The observable logging effects of one `train` call: the batch indices
at which the progress line is printed (`train.py` line 46) and the batch
indices at which `wandb.log({"training_loss": ...})` fires
(`train.py` line 58), each in execution order. -/
structure TrainEvents where
  printed : List Nat
  logged : List Nat
deriving Repr, DecidableEq

/-- The body of `train`'s `for batch_idx, (data, target) in enumerate(...)`
loop (`train.py` lines 38-58), recursing over the remaining batches with
the current `batch_idx`.  Each batch applies one optimizer update `step`
(zero_grad / forward / nll_loss / backward / step, abstracted as a
parameter transformer); when `batch_idx % log_interval == 0` the progress
line is printed and, if `dry_run`, the loop breaks before reaching the
`wandb.log` call at the bottom of the loop body; otherwise the iteration
ends with the `wandb.log` emission. -/
def trainAux {P β : Type} (args : Args) (step : P → β → P) :
    List β → Nat → P → P × TrainEvents
  | [], _, p => (p, ⟨[], []⟩)
  | b :: bs, i, p =>
    let p1 := step p b
    if i % args.log_interval = 0 then
      if args.dry_run then (p1, ⟨[i], []⟩)
      else
        let r := trainAux args step bs (i + 1) p1
        (r.1, ⟨i :: r.2.printed, i :: r.2.logged⟩)
    else
      let r := trainAux args step bs (i + 1) p1
      (r.1, ⟨r.2.printed, i :: r.2.logged⟩)

/-- The epoch trainer `train(args, model, device, train_loader, optimizer, epoch)`
(`train.py` lines 18-58): one pass over the batched training data starting
at `batch_idx = 0`, returning the updated parameters and the logging
events. -/
def train {P β : Type} (args : Args) (step : P → β → P) (batches : List β)
    (p : P) : P × TrainEvents :=
  trainAux args step batches 0 p

/-- One hyperparameter proposal, as drawn by `trial.suggest_float` /
`trial.suggest_categorical` at the top of `train_model`
(`train.py` lines 111-113); the sampling itself is Optuna's, so a trial is
just the resulting triple. -/
structure Trial where
  lr : ℚ
  batch_size : Nat
  gamma : ℚ
deriving Repr, DecidableEq

/-- State of `train_model`'s epoch loop: the model parameters, the
optimizer's current learning rate as maintained by the
`StepLR(optimizer, step_size=1, gamma=gamma)` schedule, and the `loss`
variable, `none` while still unbound. -/
structure EpochState (P : Type) where
  params : P
  lr : ℚ
  lastLoss : Option ℚ

/-- One iteration of `for epoch in range(args.epochs)` in `train_model`
(`train.py` lines 134-137): run `train` at the current learning rate, run
`test` (which binds `loss`), then `scheduler.step()` multiplies the
learning rate by `gamma` (a `StepLR` with `step_size=1`). -/
def epochStep {P α : Type} (forward : P → α → List ℚ)
    (stepF : ℚ → P → List (Sample α) → P) (args : Args) (trial : Trial)
    (train_loader test_loader : List (List (Sample α)))
    (st : EpochState P) (_e : Nat) : EpochState P :=
  let p1 := (train args (stepF st.lr) train_loader st.params).1
  let r := test forward p1 test_loader
  { params := r.1.params, lr := trial.gamma * st.lr, lastLoss := some r.2.1 }

/-- The trial runner `train_model(trial, args, model, device)` (`train.py` lines 98-139):
builds the train loader from the trial's batch size and the test loader
from `args.test_batch_size` (the CUDA-only loader options - workers,
pinned memory, shuffling - are device/performance concerns of the external
loader and are not modelled; the CPU path is embedded), then runs the
epoch loop and returns `loss` - which is unbound (`none`) when the loop
body never ran. -/
def train_model {P α : Type} (forward : P → α → List ℚ)
    (stepF : ℚ → P → List (Sample α) → P) (trial : Trial) (args : Args)
    (params0 : P) (trainSet testSet : List (Sample α)) : Option ℚ :=
  let train_loader := trainSet.toChunks trial.batch_size
  let test_loader := testSet.toChunks args.test_batch_size
  let final := (List.range args.epochs).foldl
    (epochStep forward stepF args trial train_loader test_loader)
    { params := params0, lr := trial.lr, lastLoss := none }
  final.lastLoss

/-- Modelled from the spec: `study.optimize(objective, n_trials)` on a
minimization study (Optuna is an external library; the spec says the
driver "runs a fixed number of independent trials", sequentially, each
invoking the trial runner with a freshly sampled proposal).  The runner
maps each trial index to its proposal and returned objective value. -/
def study_optimize (runner : Nat → Trial × ℚ) (n_trials : Nat) :
    List (Trial × ℚ) :=
  (List.range n_trials).map runner

/-- Modelled from the spec: `study.best_params` - "reports the proposal
... that produced the lowest observed objective".  Returns the first
proposal attaining the minimum objective, `none` for an empty study. -/
def bestTrial : List (Trial × ℚ) → Option (Trial × ℚ)
  | [] => none
  | t :: ts => some (ts.foldl (fun b c => if c.2 < b.2 then c else b) t)

/-- The search-driver section of `main` (`train.py` lines 183-185):
create a minimization study, run exactly 10 trials, report the best. -/
def main_study (runner : Nat → Trial × ℚ) :
    List (Trial × ℚ) × Option (Trial × ℚ) :=
  let ts := study_optimize runner 10
  (ts, bestTrial ts)

/-- The argparse defaults of `main` (`train.py` lines 150-169):
batch size 64, test batch size 1000, 2 epochs, lr 1.0, gamma 0.7, CPU
allowed, no dry run, seed 1, log interval 10, no model saving. -/
def defaultArgs : Args :=
  { batch_size := 64, test_batch_size := 1000, epochs := 2, lr := 1,
    gamma := 7/10, no_cuda := false, dry_run := false, seed := 1,
    log_interval := 10, save_model := false }

/-- The defaults with the `--dry-run` flag set. -/
def dryArgs : Args := { defaultArgs with dry_run := true }

/-- The defaults with only the dead flags `--lr`, `--gamma`,
`--batch-size` changed. -/
def altArgs : Args := { defaultArgs with lr := 2, gamma := 1/2, batch_size := 128 }

/-- A model emitting a positive score (as any untrained/unnormalized
network head could). -/
def badForward : Unit → Unit → List ℚ := fun _ _ => [1]

/-- A model emitting log-probability-like (nonpositive) scores, as the
real `Net`'s final `log_softmax` does. -/
def goodForward : Unit → Unit → List ℚ := fun _ _ => [-1, -2]

/-- A one-batch, one-sample test loader. -/
def loader1 : List (List (Sample Unit)) := [[⟨(), 0⟩]]

/-- A two-batch test loader over three samples. -/
def loaderW : List (List (Sample Unit)) := [[⟨(), 0⟩, ⟨(), 1⟩], [⟨(), 0⟩]]

/-- A trivial forward function over unit parameters. -/
def forward0 : Unit → Unit → List ℚ := fun _ _ => []

/-- A trivial optimizer step over unit parameters. -/
def stepF0 : ℚ → Unit → List (Sample Unit) → Unit := fun _ _ _ => ()

/-- A concrete hyperparameter proposal. -/
def trialA : Trial := { lr := 1/2, batch_size := 64, gamma := 3/4 }

/-- Distinct stub proposals for the three-trial search scenario. -/
def stubTrial (i : Nat) : Trial := { lr := (i : ℚ), batch_size := 64, gamma := 1/2 }

/-- Stubbed trial runner returning objectives 0.5, 0.1, 0.9 on successive
calls. -/
def stubRunner : Nat → Trial × ℚ :=
  fun i => (stubTrial i, [(1 : ℚ)/2, 1/10, 9/10].getD i 0)

/-! ## Evaluator lemmas -/

lemma evalBatch_params {P α : Type} (forward : P → α → List ℚ)
    (st : EvalState P) (b : List (Sample α)) :
    (evalBatch forward st b).params = st.params := rfl

lemma evalFold_params {P α : Type} (forward : P → α → List ℚ)
    (L : List (List (Sample α))) (st : EvalState P) :
    (L.foldl (evalBatch forward) st).params = st.params := by
  induction L generalizing st with
  | nil => rfl
  | cons b bs ih => rw [List.foldl_cons]; exact ih _

lemma evalFold_spec {P α : Type} (forward : P → α → List ℚ)
    (L : List (List (Sample α))) (st : EvalState P) :
    L.foldl (evalBatch forward) st =
      ⟨st.params,
       st.test_loss + (L.map (batchLoss (forward st.params))).sum,
       st.correct + (L.map (batchCorrect (forward st.params))).sum⟩ := by
  induction L generalizing st with
  | nil => simp
  | cons b bs ih =>
    rw [List.foldl_cons, ih]
    simp [evalBatch, add_assoc]

lemma batchLoss_append {α : Type} (f : α → List ℚ) (l1 l2 : List (Sample α)) :
    batchLoss f (l1 ++ l2) = batchLoss f l1 + batchLoss f l2 := by
  simp [batchLoss]

lemma batchCorrect_append {α : Type} (f : α → List ℚ) (l1 l2 : List (Sample α)) :
    batchCorrect f (l1 ++ l2) = batchCorrect f l1 + batchCorrect f l2 := by
  simp [batchCorrect]

lemma batchLoss_flatten {α : Type} (f : α → List ℚ) (L : List (List (Sample α))) :
    (L.map (batchLoss f)).sum = batchLoss f L.flatten := by
  induction L with
  | nil => simp [batchLoss]
  | cons b bs ih => simp [batchLoss_append, ih]

lemma batchCorrect_flatten {α : Type} (f : α → List ℚ) (L : List (List (Sample α))) :
    (L.map (batchCorrect f)).sum = batchCorrect f L.flatten := by
  induction L with
  | nil => simp [batchCorrect]
  | cons b bs ih => simp [batchCorrect_append, ih]

/-! ## Claims about the evaluator -/

/-- C9: the evaluator leaves the model's parameters unchanged — for every
model and test set, the parameter component of the state after `test`
equals the parameters passed in (the no-grad loop only accumulates
`test_loss` and `correct`). -/
theorem C9_test_preserves_params {P α : Type} (forward : P → α → List ℚ)
    (params : P) (loader : List (List (Sample α))) :
    (test forward params loader).1.params = params := by
  simp only [test]
  exact evalFold_params forward loader _

/-- C2: for every non-empty test set, `test` returns the summed
per-sample negative-log-likelihood loss divided by the total sample count,
and reports accuracy equal to the count of correct top-1 predictions
divided by the total sample count. -/
theorem C2_test_returns_averages {P α : Type} (forward : P → α → List ℚ)
    (params : P) (loader : List (List (Sample α)))
    (h : loader.flatten ≠ []) :
    (test forward params loader).2.1 =
      (loader.flatten.map (fun s => nll_loss (forward params s.data) s.target)).sum
        / (loader.flatten.length : ℚ) ∧
    (test forward params loader).2.2 =
      ((loader.flatten.filter
          (fun s => argmax (forward params s.data) = s.target)).length : ℚ)
        / (loader.flatten.length : ℚ) := by
  have hs := evalFold_spec forward loader ⟨params, 0, 0⟩
  constructor <;>
    simp [test, hs, batchLoss_flatten, batchCorrect_flatten, batchLoss, batchCorrect]

/-- Witness for C2 at a concrete two-batch loader. -/
theorem C2_test_returns_averages_witness :
    loaderW.flatten ≠ [] ∧
    ((test goodForward () loaderW).2.1 =
      (loaderW.flatten.map (fun s => nll_loss (goodForward () s.data) s.target)).sum
        / (loaderW.flatten.length : ℚ) ∧
     (test goodForward () loaderW).2.2 =
      ((loaderW.flatten.filter
          (fun s => argmax (goodForward () s.data) = s.target)).length : ℚ)
        / (loaderW.flatten.length : ℚ)) :=
  ⟨by decide, C2_test_returns_averages goodForward () loaderW (by decide)⟩

/-- C6: the evaluator's aggregation is batch-invariant — for every dataset
and every batching of it, the loop's accumulated `correct` equals the
correct count over the whole set in one batch, and the accumulated summed
loss likewise. -/
theorem C6_batch_invariant_aggregation {P α : Type} (forward : P → α → List ℚ)
    (p : P) (dataset : List (Sample α)) (L : List (List (Sample α)))
    (h : L.flatten = dataset) :
    (L.foldl (evalBatch forward) ⟨p, 0, 0⟩).correct =
      batchCorrect (forward p) dataset ∧
    (L.foldl (evalBatch forward) ⟨p, 0, 0⟩).test_loss =
      batchLoss (forward p) dataset := by
  subst h
  rw [evalFold_spec]
  simp [batchLoss_flatten, batchCorrect_flatten]

/-- Witness for C6 at a concrete two-batch split of a three-sample set. -/
theorem C6_batch_invariant_aggregation_witness :
    loaderW.flatten = [⟨(), 0⟩, ⟨(), 1⟩, ⟨(), 0⟩] ∧
    ((loaderW.foldl (evalBatch goodForward) ⟨(), 0, 0⟩).correct =
      batchCorrect (goodForward ()) [⟨(), 0⟩, ⟨(), 1⟩, ⟨(), 0⟩] ∧
     (loaderW.foldl (evalBatch goodForward) ⟨(), 0, 0⟩).test_loss =
      batchLoss (goodForward ()) [⟨(), 0⟩, ⟨(), 1⟩, ⟨(), 0⟩]) :=
  ⟨by decide,
   C6_batch_invariant_aggregation goodForward () [⟨(), 0⟩, ⟨(), 1⟩, ⟨(), 0⟩]
     loaderW (by decide)⟩

lemma getD_nonpos (l : List ℚ) (t : Nat) (h : ∀ q ∈ l, q ≤ 0) :
    l.getD t 0 ≤ 0 := by
  induction l generalizing t with
  | nil => simp [List.getD]
  | cons x xs ih =>
    cases t with
    | zero => simpa using h x (List.mem_cons_self x xs)
    | succ n =>
      simp only [List.getD_cons_succ]
      exact ih n (fun q hq => h q (List.mem_cons_of_mem x hq))

/-- C5 as stated is false: for a model whose output scores are not
log-probabilities (here a positive score), the returned average loss is
negative. -/
theorem C5_counterexample : (test badForward () loader1).2.1 < 0 := by
  norm_num [test, evalBatch, batchLoss, nll_loss, badForward, loader1]

/-- C5 amended: for every model and every non-empty test set the reported
accuracy lies in `[0, 1]`; the returned average loss is nonnegative
provided the model's output scores are nonpositive (log-probabilities, as
produced by the real network's final `log_softmax`) — that proviso guards
only the loss bound. -/
theorem C5_evaluator_invariant_amended {P α : Type}
    (forward : P → α → List ℚ) (params : P)
    (loader : List (List (Sample α)))
    (hne : loader.flatten ≠ []) :
    0 ≤ (test forward params loader).2.2 ∧
    (test forward params loader).2.2 ≤ 1 ∧
    ((∀ s ∈ loader.flatten, ∀ q ∈ forward params s.data, q ≤ 0) →
      0 ≤ (test forward params loader).2.1) := by
  have hs := evalFold_spec forward loader ⟨params, 0, 0⟩
  have hNpos : (0 : ℚ) < (loader.flatten.length : ℚ) := by
    exact_mod_cast List.length_pos.2 hne
  have hacc : (test forward params loader).2.2 =
      ((batchCorrect (forward params) loader.flatten : ℚ)) /
        (loader.flatten.length : ℚ) := by
    simp [test, hs, batchCorrect_flatten]
  have hloss : (test forward params loader).2.1 =
      (batchLoss (forward params) loader.flatten) /
        (loader.flatten.length : ℚ) := by
    simp [test, hs, batchLoss_flatten]
  refine ⟨?_, ?_, fun hlog => ?_⟩
  · rw [hacc]
    positivity
  · rw [hacc]
    rw [div_le_one hNpos]
    exact_mod_cast List.length_filter_le _ _
  · rw [hloss]
    apply div_nonneg _ hNpos.le
    apply List.sum_nonneg
    intro x hx
    obtain ⟨s, hsmem, rfl⟩ := List.mem_map.1 hx
    have : (forward params s.data).getD s.target 0 ≤ 0 :=
      getD_nonpos _ _ (hlog s hsmem)
    simpa [nll_loss] using this

/-- Witness for the amended C5: the accuracy bounds hold even for the
positive-score model of the counterexample, and the loss bound holds for
a concrete log-probability model. -/
theorem C5_evaluator_invariant_amended_witness :
    (loader1.flatten ≠ [] ∧
     0 ≤ (test badForward () loader1).2.2 ∧
     (test badForward () loader1).2.2 ≤ 1) ∧
    (loaderW.flatten ≠ [] ∧
     0 ≤ (test goodForward () loaderW).2.1) :=
  ⟨⟨by decide,
    (C5_evaluator_invariant_amended badForward () loader1 (by decide)).1,
    (C5_evaluator_invariant_amended badForward () loader1 (by decide)).2.1⟩,
   ⟨by decide,
    (C5_evaluator_invariant_amended goodForward () loaderW (by decide)).2.2
      (by intro s _ q hq; simp [goodForward] at hq
          rcases hq with rfl | rfl <;> norm_num)⟩⟩

/-! ## Epoch-trainer lemmas and claims -/

lemma trainAux_events {P β : Type} (args : Args) (h1 : args.dry_run = false)
    (step : P → β → P) (batches : List β) (i : Nat) (p : P) :
    (trainAux args step batches i p).2.logged = List.range' i batches.length ∧
    (trainAux args step batches i p).2.printed =
      (List.range' i batches.length).filter
        (fun j => j % args.log_interval == 0) := by
  induction batches generalizing i p with
  | nil => simp [trainAux]
  | cons b bs ih =>
    by_cases hio : i % args.log_interval = 0 <;>
      simp [trainAux, h1, hio, List.range'_succ, List.filter_cons,
        (ih (i + 1) (step p b)).1, (ih (i + 1) (step p b)).2]

/-- C1 as stated is false: with the default configuration (log interval
10, dry run off), batch 1's loss is emitted to the metric stream even
though 1 is not a multiple of the log interval — the `wandb.log` call sits
outside the `batch_idx % log_interval == 0` block. -/
theorem C1_counterexample :
    1 ∈ (train defaultArgs (fun (p : Unit) (_ : Unit) => p) [(), ()] ()).2.logged ∧
    ¬ (1 % defaultArgs.log_interval = 0) := by
  decide

/-- C1 amended: with the dry-run flag off and a positive log interval,
the loss is emitted to the metric stream on every batch (indices
`0 .. numBatches-1`), while the progress print happens exactly on the
batches whose index is a multiple of the log interval. -/
theorem C1_metric_emission_amended {P β : Type} (args : Args)
    (h1 : args.dry_run = false) (h2 : 0 < args.log_interval)
    (step : P → β → P) (batches : List β) (p : P) :
    (train args step batches p).2.logged = List.range batches.length ∧
    (train args step batches p).2.printed =
      (List.range batches.length).filter
        (fun j => j % args.log_interval == 0) := by
  have h := trainAux_events args h1 step batches 0 p
  rw [List.range_eq_range']
  exact h

/-- Witness for the amended C1 with the default configuration on three
batches. -/
theorem C1_metric_emission_amended_witness :
    defaultArgs.dry_run = false ∧ 0 < defaultArgs.log_interval ∧
    ((train defaultArgs (fun (p : Unit) (_ : Unit) => p) [(), (), ()] ()).2.logged =
        List.range 3 ∧
     (train defaultArgs (fun (p : Unit) (_ : Unit) => p) [(), (), ()] ()).2.printed =
        (List.range 3).filter (fun j => j % defaultArgs.log_interval == 0)) :=
  ⟨rfl, by decide,
   C1_metric_emission_amended defaultArgs rfl (by decide)
     (fun (p : Unit) (_ : Unit) => p) [(), (), ()] ()⟩

/-- C4: with the dry-run flag set (and a positive log interval, so the
Python modulo is defined), `train` performs exactly one optimizer step —
on batch index 0 — prints once, emits nothing to the metric stream, and
returns, for every training set with at least one batch. -/
theorem C4_dry_run_single_batch {P β : Type} (args : Args)
    (h1 : args.dry_run = true) (h2 : 0 < args.log_interval)
    (step : P → β → P) (b : β) (bs : List β) (p : P) :
    train args step (b :: bs) p = (step p b, ⟨[0], []⟩) := by
  simp [train, trainAux, Nat.zero_mod, h1]

/-- Witness for C4: dry-run defaults on a three-batch training set. -/
theorem C4_dry_run_single_batch_witness :
    dryArgs.dry_run = true ∧ 0 < dryArgs.log_interval ∧
    train dryArgs (fun (p : Unit) (_ : Unit) => p) [(), (), ()] () =
      ((), ⟨[0], []⟩) :=
  ⟨rfl, by decide,
   C4_dry_run_single_batch dryArgs rfl (by decide)
     (fun (p : Unit) (_ : Unit) => p) () [(), ()] ()⟩

/-! ## Trial-runner lemmas and claims -/

lemma epochFold_lr {P α : Type} (forward : P → α → List ℚ)
    (stepF : ℚ → P → List (Sample α) → P) (args : Args) (trial : Trial)
    (train_loader test_loader : List (List (Sample α)))
    (l : List Nat) (st : EpochState P) :
    (l.foldl (epochStep forward stepF args trial train_loader test_loader) st).lr =
      trial.gamma ^ l.length * st.lr := by
  induction l generalizing st with
  | nil => simp
  | cons e es ih =>
    rw [List.foldl_cons, ih]
    simp only [epochStep, List.length_cons, pow_succ]
    ring

/-- C7: with the step-decay schedule built by the trial runner (step size
1, factor gamma, stepped once after each epoch), the optimizer's
effective learning rate after `k` completed epochs equals
`initial_lr * gamma ^ k`, for every `k ≤ args.epochs`. -/
theorem C7_steplr_decay {P α : Type} (forward : P → α → List ℚ)
    (stepF : ℚ → P → List (Sample α) → P) (args : Args) (trial : Trial)
    (train_loader test_loader : List (List (Sample α))) (p0 : P)
    (k : Nat) (hk : k ≤ args.epochs) :
    ((List.range k).foldl
        (epochStep forward stepF args trial train_loader test_loader)
        ⟨p0, trial.lr, none⟩).lr = trial.lr * trial.gamma ^ k := by
  rw [epochFold_lr]
  simp [mul_comm]

/-- Witness for C7: two completed epochs out of the default two. -/
theorem C7_steplr_decay_witness :
    2 ≤ defaultArgs.epochs ∧
    ((List.range 2).foldl
        (epochStep forward0 stepF0 defaultArgs trialA [] [])
        ⟨(), trialA.lr, none⟩).lr = trialA.lr * trialA.gamma ^ 2 :=
  ⟨by decide,
   C7_steplr_decay forward0 stepF0 defaultArgs trialA [] [] () 2 (by decide)⟩

lemma trainAux_config {P β : Type} (a1 a2 : Args)
    (hli : a1.log_interval = a2.log_interval)
    (hdr : a1.dry_run = a2.dry_run)
    (step : P → β → P) (batches : List β) (i : Nat) (p : P) :
    trainAux a1 step batches i p = trainAux a2 step batches i p := by
  induction batches generalizing i p with
  | nil => rfl
  | cons b bs ih => simp [trainAux, hli, hdr, ih]

lemma epochStep_config {P α : Type} (forward : P → α → List ℚ)
    (stepF : ℚ → P → List (Sample α) → P) (a1 a2 : Args) (trial : Trial)
    (train_loader test_loader : List (List (Sample α)))
    (hli : a1.log_interval = a2.log_interval)
    (hdr : a1.dry_run = a2.dry_run)
    (st : EpochState P) (e : Nat) :
    epochStep forward stepF a1 trial train_loader test_loader st e =
    epochStep forward stepF a2 trial train_loader test_loader st e := by
  simp [epochStep, train, trainAux_config a1 a2 hli hdr]

/-- C8: the trial runner's result is independent of the dead `--lr`,
`--gamma` and `--batch-size` flags — two run configurations that agree on
every other field yield identical `train_model` results for the same trial
proposal, model, and data. -/
theorem C8_dead_config_noninterference {P α : Type}
    (forward : P → α → List ℚ) (stepF : ℚ → P → List (Sample α) → P)
    (trial : Trial) (a1 a2 : Args) (params0 : P)
    (trainSet testSet : List (Sample α))
    (h : a1.test_batch_size = a2.test_batch_size ∧ a1.epochs = a2.epochs ∧
         a1.no_cuda = a2.no_cuda ∧ a1.dry_run = a2.dry_run ∧
         a1.seed = a2.seed ∧ a1.log_interval = a2.log_interval ∧
         a1.save_model = a2.save_model) :
    train_model forward stepF trial a1 params0 trainSet testSet =
    train_model forward stepF trial a2 params0 trainSet testSet := by
  obtain ⟨h1, h2, h3, h4, h5, h6, h7⟩ := h
  simp only [train_model, h1, h2]
  rw [List.foldl_ext]
  intro st e _
  exact epochStep_config forward stepF a1 a2 trial _ _ h6 h4 st e

/-- Witness for C8: the default configuration against one differing only
in `--lr`, `--gamma`, `--batch-size`. -/
theorem C8_dead_config_noninterference_witness :
    (defaultArgs.lr ≠ altArgs.lr ∧ defaultArgs.gamma ≠ altArgs.gamma ∧
     defaultArgs.batch_size ≠ altArgs.batch_size) ∧
    train_model forward0 stepF0 trialA defaultArgs () [] [] =
      train_model forward0 stepF0 trialA altArgs () [] [] :=
  ⟨⟨by norm_num [defaultArgs, altArgs], by norm_num [defaultArgs, altArgs],
    by decide⟩,
   C8_dead_config_noninterference forward0 stepF0 trialA defaultArgs altArgs
     () [] [] ⟨rfl, rfl, rfl, rfl, rfl, rfl, rfl⟩⟩

/-- C10: `train_model` returns a value exactly when the epoch count is at
least 1 — with `epochs = 0` the loop body never runs and the `return loss`
hits an unbound variable (modelled as `none`). -/
theorem C10_epochs_required {P α : Type} (forward : P → α → List ℚ)
    (stepF : ℚ → P → List (Sample α) → P) (trial : Trial) (args : Args)
    (params0 : P) (trainSet testSet : List (Sample α)) :
    (train_model forward stepF trial args params0 trainSet testSet).isSome ↔
      1 ≤ args.epochs := by
  cases hE : args.epochs with
  | zero => simp [train_model, hE]
  | succ n =>
    simp only [train_model, hE, List.range_succ, List.foldl_append,
      List.foldl_cons, List.foldl_nil]
    simp [epochStep]

/-! ## Search-driver lemmas and claim -/

lemma bestFold_le (l : List (Trial × ℚ)) (t : Trial × ℚ) :
    (l.foldl (fun b c => if c.2 < b.2 then c else b) t).2 ≤ t.2 ∧
    ∀ r ∈ l, (l.foldl (fun b c => if c.2 < b.2 then c else b) t).2 ≤ r.2 := by
  induction l generalizing t with
  | nil => simp
  | cons c cs ih =>
    rw [List.foldl_cons]
    constructor
    · rcases le_or_lt t.2 c.2 with h | h
      · rw [if_neg (not_lt.2 h)]
        exact (ih t).1
      · rw [if_pos h]
        exact le_trans (ih c).1 h.le
    · intro r hr
      rcases List.mem_cons.1 hr with rfl | hr
      · by_cases h : r.2 < t.2
        · rw [if_pos h]
          exact (ih r).1
        · rw [if_neg h]
          exact le_trans (ih t).1 (not_lt.1 h)
      · by_cases h : c.2 < t.2
        · rw [if_pos h]
          exact (ih c).2 r hr
        · rw [if_neg h]
          exact (ih t).2 r hr

lemma bestTrial_le (l : List (Trial × ℚ)) (d r : Trial × ℚ) (hr : r ∈ l) :
    ((bestTrial l).getD d).2 ≤ r.2 := by
  cases l with
  | nil => cases hr
  | cons t ts =>
    simp only [bestTrial, Option.getD_some]
    rcases List.mem_cons.1 hr with rfl | hr
    · exact (bestFold_le ts r).1
    · exact (bestFold_le ts t).2 r hr

/-- C3: the search driver runs exactly 10 trials sequentially and the
reported best has an objective no larger than any trial's objective; and
on the stubbed three-trial runner returning 0.5, 0.1, 0.9, the second
trial's proposal is reported as best with value 0.1. -/
theorem C3_search_driver (runner : Nat → Trial × ℚ) :
    (main_study runner).1.length = 10 ∧
    (∀ i : Fin 10,
      ((main_study runner).2.getD (runner 0)).2 ≤ (runner i.1).2) ∧
    bestTrial (study_optimize stubRunner 3) = some (stubTrial 1, 1/10) := by
  refine ⟨by simp [main_study, study_optimize], fun i => ?_, ?_⟩
  · simp only [main_study, study_optimize]
    exact bestTrial_le _ _ _
      (List.mem_map_of_mem runner (List.mem_range.2 i.2))
  · norm_num [bestTrial, study_optimize, stubRunner, stubTrial,
      List.range_succ]

end PlrExercise
